import Mathlib

/-!
Shallow embedding of the petsync Apps Script repository: the config module
(unnamed source file, historically `Config.gs`), `UtilityService.gs` and
`Code.gs`.  JavaScript values are modelled by `JsVal`; platform effects
(HTTP transport, `JSON.parse` of arbitrary strings, A1 range resolution,
the project trigger list, the spreadsheet grid) are modelled as explicit
oracle arguments or state passed through the functions.
-/

/-- JavaScript values as the scripts use them: primitives, arrays and plain
objects.  Objects are ordered field lists, since JS objects preserve
insertion order and the code iterates them with `Object.keys`. -/
inductive JsVal : Type where
  | undef : JsVal
  | null : JsVal
  | bool : Bool → JsVal
  | num : Int → JsVal
  | str : String → JsVal
  | arr : List JsVal → JsVal
  | obj : List (String × JsVal) → JsVal

mutual
/-- Boolean structural equality on `JsVal` (deriving is unavailable for this
nested inductive, so decidable equality is built by hand). -/
def jsEq : JsVal → JsVal → Bool
  | .undef, .undef => true
  | .null, .null => true
  | .bool a, .bool b => a == b
  | .num a, .num b => a == b
  | .str a, .str b => a == b
  | .arr a, .arr b => jsEqArr a b
  | .obj a, .obj b => jsEqObj a b
  | _, _ => false

def jsEqArr : List JsVal → List JsVal → Bool
  | [], [] => true
  | x :: xs, y :: ys => jsEq x y && jsEqArr xs ys
  | _, _ => false

def jsEqObj : List (String × JsVal) → List (String × JsVal) → Bool
  | [], [] => true
  | (k1, v1) :: xs, (k2, v2) :: ys => k1 == k2 && jsEq v1 v2 && jsEqObj xs ys
  | _, _ => false
end

mutual
def jsEq_iff : ∀ (a b : JsVal), jsEq a b = true ↔ a = b
  | .undef, b => by cases b <;> simp [jsEq]
  | .null, b => by cases b <;> simp [jsEq]
  | .bool x, b => by cases b <;> simp [jsEq]
  | .num x, b => by cases b <;> simp [jsEq]
  | .str x, b => by cases b <;> simp [jsEq]
  | .arr xs, b => by
    cases b <;> simp [jsEq]
    exact jsEqArr_iff xs _
  | .obj fs, b => by
    cases b <;> simp [jsEq]
    exact jsEqObj_iff fs _

def jsEqArr_iff : ∀ (xs ys : List JsVal), jsEqArr xs ys = true ↔ xs = ys
  | [], ys => by cases ys <;> simp [jsEqArr]
  | x :: xs, [] => by simp [jsEqArr]
  | x :: xs, y :: ys => by simp [jsEqArr, jsEq_iff x y, jsEqArr_iff xs ys]

def jsEqObj_iff : ∀ (xs ys : List (String × JsVal)), jsEqObj xs ys = true ↔ xs = ys
  | [], ys => by cases ys <;> simp [jsEqObj]
  | x :: xs, [] => by simp [jsEqObj]
  | (k1, v1) :: xs, (k2, v2) :: ys => by
    simp [jsEqObj, jsEq_iff v1 v2, jsEqObj_iff xs ys, and_assoc]
end

instance : DecidableEq JsVal := fun a b => decidable_of_iff (jsEq a b = true) (jsEq_iff a b)

/-- `s.startsWith(p)`, computed on the character lists (the byte-position
implementation in core does not reduce in the kernel). -/
def strStartsWith (s p : String) : Bool := p.data.isPrefixOf s.data

/-- `s.toUpperCase()`, computed on the character lists. -/
def strToUpper (s : String) : String := .mk (s.data.map Char.toUpper)

/-- The canonical-decimal reading of a string, for JS numeric property
keys: `some n` iff the string is nonempty and all digits. -/
def strToNatQ (s : String) : Option Nat :=
  if s.data ≠ [] ∧ s.data.all Char.isDigit then
    some (s.data.foldl (fun acc c => 10 * acc + (c.toNat - '0'.toNat)) 0)
  else none

/-- JS truthiness (`!v` negated).  `NaN` is not representable here; the
scripts never produce it. -/
def truthy : JsVal → Bool
  | .undef => false
  | .null => false
  | .bool b => b
  | .num n => n != 0
  | .str s => s != ""
  | .arr _ => true
  | .obj _ => true

/-- Whether `typeof v` evaluates to the string `object`. -/
def typeofObject : JsVal → Bool
  | .null => true
  | .arr _ => true
  | .obj _ => true
  | _ => false

/-- `Array.isArray(v)`. -/
def isArr : JsVal → Bool
  | .arr _ => true
  | _ => false

/-- Whether `typeof v` evaluates to the string `string`. -/
def isStr : JsVal → Bool
  | .str _ => true
  | _ => false

/-- Whether `typeof v` evaluates to the string `number`. -/
def isNum : JsVal → Bool
  | .num _ => true
  | _ => false

def isNull : JsVal → Bool
  | .null => true
  | _ => false

/-- The underlying string of a string value (callers guard with `isStr`). -/
def asString : JsVal → String
  | .str s => s
  | _ => ""

/-- The underlying number of a numeric value (callers guard with `isNum`). -/
def asNum : JsVal → Int
  | .num n => n
  | _ => 0

/-- Elements of an array value (empty for non-arrays). -/
def elems : JsVal → List JsVal
  | .arr xs => xs
  | _ => []

/-- Property read `v[key]`.  Absent properties read as `undefined`; arrays
and strings expose `length` and their canonical numeric indices.  (Reading
a property of `null` or `undefined` throws in JS; every read below is
guarded by a truthiness or type check in the translated code.) -/
def getProp : JsVal → String → JsVal
  | .obj fs, k => ((fs.lookup k).getD .undef)
  | .arr xs, k =>
    if k == "length" then .num xs.length
    else match strToNatQ k with
      | some i => if toString i == k then ((xs.get? i).getD .undef) else .undef
      | none => .undef
  | .str s, k =>
    if k == "length" then .num s.length
    else match strToNatQ k with
      | some i =>
        if toString i == k then (((s.data.get? i).map (fun c => JsVal.str (String.singleton c))).getD .undef)
        else .undef
      | none => .undef
  | _, _ => JsVal.undef

/-- Replace the first binding of `k` in an ordered field list, or append a
new binding: the effect of `o[k] = v` on a JS object. -/
def setField {α : Type} : List (String × α) → String → α → List (String × α)
  | [], k, v => [(k, v)]
  | (k0, v0) :: rest, k, v =>
    if k0 == k then (k0, v) :: rest else (k0, v0) :: setField rest k v

/-- Property write `target[k] = v`.  Under `use strict` (the config module
runs in strict mode) assigning a property of a primitive throws a
`TypeError`; only plain objects accept the write in this model. -/
def setPropE : JsVal → String → JsVal → Except String JsVal
  | .obj fs, k, v => .ok (.obj (setField fs k v))
  | _, _, _ => .error ("TypeError: cannot create property on this value")

/-- Own enumerable string-keyed properties, as `Object.keys` pairs them
with their values: object fields, array indices, string indices. -/
def ownFields : JsVal → List (String × JsVal)
  | .obj fs => fs
  | .arr xs => xs.enum.map (fun p => (toString p.1, p.2))
  | .str s => s.data.enum.map (fun p => (toString p.1, JsVal.str (String.singleton p.2)))
  | _ => []

mutual
/-- `JSON.parse(JSON.stringify(v))`: drops object fields whose value is
`undefined` and turns `undefined` array elements into `null`.  A top-level
`undefined` makes `JSON.stringify` return `undefined` (so the outer parse
would throw); the config module only ever copies its object-valued
defaults, so that case is unreachable and mapped to `undefined` itself. -/
def jsonCopy : JsVal → JsVal
  | .undef => .undef
  | .null => .null
  | .bool b => .bool b
  | .num n => .num n
  | .str s => .str s
  | .arr xs => .arr (jsonCopyArr xs)
  | .obj fs => .obj (jsonCopyFields fs)

def jsonCopyArr : List JsVal → List JsVal
  | [] => []
  | .undef :: xs => .null :: jsonCopyArr xs
  | x :: xs => jsonCopy x :: jsonCopyArr xs

def jsonCopyFields : List (String × JsVal) → List (String × JsVal)
  | [] => []
  | (_, .undef) :: fs => jsonCopyFields fs
  | (k, v) :: fs => (k, jsonCopy v) :: jsonCopyFields fs
end

mutual
/-- No `undefined` occurs anywhere inside the value. -/
def undefFree : JsVal → Bool
  | .undef => false
  | .arr xs => undefFreeArr xs
  | .obj fs => undefFreeFields fs
  | _ => true

def undefFreeArr : List JsVal → Bool
  | [] => true
  | x :: xs => undefFree x && undefFreeArr xs

def undefFreeFields : List (String × JsVal) → Bool
  | [] => true
  | (_, v) :: fs => undefFree v && undefFreeFields fs
end

mutual
/-- `mergeConfig(defaults, overrides)` from the config module: deep merge of
`overrides` onto a JSON deep copy of `defaults`.  `Object.keys` of `null`
or `undefined` throws a `TypeError`; of a number or boolean it yields no
keys.  Array and string overrides never reach this function: the single
external call passes the object built by `loadOverrides`, the recursion
guard `!Array.isArray(overrides[key])` excludes arrays, and strings fail
`typeof === 'object'`; those dead branches fall into the keyless default
case here. -/
def mergeConfig (defaults overrides : JsVal) : Except String JsVal :=
  match overrides with
  | .obj ofs => mergeFields ofs (jsonCopy defaults)
  | .null => .error ("TypeError: Cannot convert undefined or null to object")
  | .undef => .error ("TypeError: Cannot convert undefined or null to object")
  | _ => .ok (jsonCopy defaults)

/-- The `Object.keys(overrides).forEach` body of `mergeConfig`, folding the
override fields into the accumulated merged value. -/
def mergeFields (ofs : List (String × JsVal)) (merged : JsVal) : Except String JsVal :=
  match ofs with
  | [] => .ok merged
  | (k, v) :: rest =>
    match v with
    | .undef => mergeFields rest merged
    | _ =>
      if typeofObject v && !isArr v && truthy (getProp merged k) then
        match mergeConfig (getProp merged k) v with
        | .error e => .error e
        | .ok r =>
          match setPropE merged k r with
          | .error e => .error e
          | .ok m2 => mergeFields rest m2
      else
        match setPropE merged k v with
        | .error e => .error e
        | .ok m2 => mergeFields rest m2
end

/-- The field list of the compiled-in `DEFAULTS` of the config module. -/
def DEFAULTSFields : List (String × JsVal) :=
  [ ("apiUrl", .str ("https://api.example.com/petsync")),
    ("apiKey", .str ("")),
    ("endpoints", .obj [("fetchPets", .str ("/pets")), ("fetchOwners", .str ("/owners"))]),
    ("sheetName", .str ("Pets")),
    ("fullRefreshRange", .str ("A2:Z")),
    ("incrementalRefreshRange", .str ("A2:Z")),
    ("triggerName", .str ("PetSync_FetchData")) ]

/-- The compiled-in `DEFAULTS` of the config module. -/
def DEFAULTS : JsVal := .obj DEFAULTSFields

/-- `Object.assign(target, source)` restricted to string-to-string maps, as
used for `Object.assign({}, scriptProps, userProps)`: later sources win on
colliding keys, insertion order is preserved. -/
def assignProps (base : List (String × String)) : List (String × String) → List (String × String)
  | [] => base
  | (k, v) :: rest => assignProps (setField base k v) rest

/-- The `Object.keys(allProps).forEach` body of `loadOverrides`: translate
the recognized external keys into override fields, parsing `ENDPOINTS` as
JSON (`jsonParse` is the `JSON.parse` oracle, `none` meaning a parse
exception) and ignoring unknown keys. -/
def loadOverridesGo (jsonParse : String → Option JsVal) :
    List (String × String) → List (String × JsVal) → Except String (List (String × JsVal))
  | [], acc => .ok acc
  | (key, val) :: rest, acc =>
    if key == "API_URL" then loadOverridesGo jsonParse rest (setField acc "apiUrl" (.str val))
    else if key == "API_KEY" then loadOverridesGo jsonParse rest (setField acc "apiKey" (.str val))
    else if key == "ENDPOINTS" then
      match jsonParse val with
      | some j => loadOverridesGo jsonParse rest (setField acc "endpoints" j)
      | none => .error ("Invalid JSON for ENDPOINTS in PropertiesService")
    else if key == "SHEET_NAME" then loadOverridesGo jsonParse rest (setField acc "sheetName" (.str val))
    else if key == "FULL_REFRESH_RANGE" then loadOverridesGo jsonParse rest (setField acc "fullRefreshRange" (.str val))
    else if key == "INCREMENTAL_REFRESH_RANGE" then loadOverridesGo jsonParse rest (setField acc "incrementalRefreshRange" (.str val))
    else if key == "TRIGGER_NAME" then loadOverridesGo jsonParse rest (setField acc "triggerName" (.str val))
    else loadOverridesGo jsonParse rest acc

/-- `loadOverrides()` from the config module, over the merged property map
(script properties first, user properties assigned over them). -/
def loadOverrides (allProps : List (String × String)) (jsonParse : String → Option JsVal) :
    Except String (List (String × JsVal)) :=
  loadOverridesGo jsonParse allProps []

/-- The regular expression test `/^https?:\/\//.test(s)`. -/
def isHttpUrl (s : String) : Bool :=
  strStartsWith s ("http://") || strStartsWith s ("https://")

/-- The `Object.keys(config.endpoints).forEach` body of `validate`. -/
def checkEndpoints : List (String × JsVal) → Except String Unit
  | [] => .ok ()
  | (name, path) :: rest =>
    if !isStr path || !truthy path then
      .error ("Config validation failed: endpoint \"" ++ name ++ "\" must be a non-empty string")
    else if !strStartsWith (asString path) ("/") then
      .error ("Config validation failed: endpoint \"" ++ name ++ "\" should start with \"/\"")
    else checkEndpoints rest

/-- `validate(config)` from the config module: the sequence of checks on the
merged configuration, in source order (each `throw new Error` aborts). -/
def validate (config : JsVal) : Except String Unit :=
  if !truthy (getProp config "apiUrl") || !isStr (getProp config "apiUrl")
      || !isHttpUrl (asString (getProp config "apiUrl")) then
    .error ("Config validation failed: apiUrl must be a valid HTTP(S) URL")
  else if !truthy (getProp config "apiKey") || !isStr (getProp config "apiKey") then
    .error ("Config validation failed: apiKey is required and must be a string")
  else if !truthy (getProp config "endpoints") || !typeofObject (getProp config "endpoints") then
    .error ("Config validation failed: endpoints must be an object")
  else match checkEndpoints (ownFields (getProp config "endpoints")) with
  | .error e => .error e
  | .ok _ =>
    if !truthy (getProp config "sheetName") || !isStr (getProp config "sheetName") then
      .error ("Config validation failed: sheetName is required and must be a string")
    else if !truthy (getProp config "fullRefreshRange") || !isStr (getProp config "fullRefreshRange") then
      .error ("Config validation failed: fullRefreshRange is required and must be a string")
    else if !truthy (getProp config "incrementalRefreshRange") || !isStr (getProp config "incrementalRefreshRange") then
      .error ("Config validation failed: incrementalRefreshRange is required and must be a string")
    else if !truthy (getProp config "triggerName") || !isStr (getProp config "triggerName") then
      .error ("Config validation failed: triggerName is required and must be a string")
    else .ok ()

/-- The IIFE that builds `_config`: load the overrides from the two property
scopes, merge them over `DEFAULTS`, validate, and freeze (freezing is the
identity on immutable values). -/
def buildConfig (scriptProps userProps : List (String × String))
    (jsonParse : String → Option JsVal) : Except String JsVal := do
  let ov ← loadOverrides (assignProps (assignProps [] scriptProps) userProps) jsonParse
  let cfg ← mergeConfig DEFAULTS (.obj ov)
  validate cfg
  .ok cfg

/-- `Object.assign({}, v)`: a fresh object holding the own enumerable
properties of `v`. -/
def objAssignCopy (v : JsVal) : JsVal := .obj (ownFields v)

/-- `Config.getApiConfig()`: a frozen copy of the API-facing fields. -/
def getApiConfig (config : JsVal) : JsVal :=
  .obj [ ("apiUrl", getProp config "apiUrl"),
         ("apiKey", getProp config "apiKey"),
         ("endpoints", objAssignCopy (getProp config "endpoints")) ]

/-- `Config.getSheetRanges()`: a frozen copy of the sheet-facing fields,
including the `incrementalRange` alias of `incrementalRefreshRange`. -/
def getSheetRanges (config : JsVal) : JsVal :=
  .obj [ ("sheetName", getProp config "sheetName"),
         ("fullRefreshRange", getProp config "fullRefreshRange"),
         ("incrementalRefreshRange", getProp config "incrementalRefreshRange"),
         ("incrementalRange", getProp config "incrementalRefreshRange") ]

/-- `Config.getTriggerName()`. -/
def getTriggerName (config : JsVal) : JsVal := getProp config "triggerName"

mutual
/-- JS string coercion `String(v)` as used by `+` on strings: arrays join
their elements with commas (`null` and `undefined` elements become the
empty string), plain objects print as `[object Object]`. -/
def jsToString : JsVal → String
  | .undef => "undefined"
  | .null => "null"
  | .bool b => if b then "true" else "false"
  | .num n => toString n
  | .str s => s
  | .arr xs => joinComma xs
  | .obj _ => "[object Object]"

def joinComma : List JsVal → String
  | [] => ""
  | [.undef] => ""
  | [.null] => ""
  | [x] => jsToString x
  | .undef :: xs => "," ++ joinComma xs
  | .null :: xs => "," ++ joinComma xs
  | x :: xs => jsToString x ++ "," ++ joinComma xs
end

/-- `response.hasOwnProperty(key)`: own properties of objects, arrays
(canonical indices and `length`) and strings. -/
def hasOwnProp : JsVal → String → Bool
  | .obj fs, k => fs.any (fun p => p.1 == k)
  | .arr xs, k =>
    k == "length" ||
      (match strToNatQ k with
       | some i => decide (i < xs.length) && toString i == k
       | none => false)
  | .str s, k =>
    k == "length" ||
      (match strToNatQ k with
       | some i => decide (i < s.length) && toString i == k
       | none => false)
  | _, _ => false

/-- The `requiredKeys.forEach` body of `validateResponse`: the presence
check, with JS property-key coercion of the array elements. -/
def checkRequired (response : JsVal) : List JsVal → Except String Unit
  | [] => .ok ()
  | key :: rest =>
    if !hasOwnProp response (jsToString key) then
      .error ("validateResponse: missing required key \"" ++ jsToString key ++ "\"")
    else checkRequired response rest

/-- `UtilityService.validateResponse(response, requiredKeys)`.  Calling it
with a single argument, as `fetchData` does, passes `undefined` for
`requiredKeys`. -/
def validateResponse (response requiredKeys : JsVal) : Except String Bool :=
  if !typeofObject response || isNull response then
    .error ("validateResponse: response must be a non-null object")
  else if !isArr requiredKeys then
    .error ("validateResponse: requiredKeys must be an array of strings")
  else match checkRequired response (elems requiredKeys) with
  | .error e => .error e
  | .ok _ => .ok true

mutual
/-- `JSON.stringify(v)` (no indentation), as used to serialize a non-string
payload.  Object fields with `undefined` values are dropped; `undefined`
array elements print as `null`.  String escaping covers the characters the
scripts can produce (quote, backslash, newline). -/
def jsonStringify : JsVal → String
  | .undef => "undefined"
  | .null => "null"
  | .bool b => if b then "true" else "false"
  | .num n => toString n
  | .str s => "\"" ++ jsonEscape s.data ++ "\""
  | .arr xs => "[" ++ jsonStringifyArr xs ++ "]"
  | .obj fs => "\x7b" ++ jsonStringifyFields fs ++ "\x7d"

def jsonEscape : List Char → String
  | [] => ""
  | c :: cs =>
    (if c = '"' then "\\\"" else if c = '\\' then "\\\\" else if c = '\n' then "\\n" else String.singleton c)
      ++ jsonEscape cs

def jsonStringifyArr : List JsVal → String
  | [] => ""
  | [.undef] => "null"
  | [x] => jsonStringify x
  | .undef :: xs => "null," ++ jsonStringifyArr xs
  | x :: xs => jsonStringify x ++ "," ++ jsonStringifyArr xs

def jsonStringifyFields : List (String × JsVal) → String
  | [] => ""
  | [(_, .undef)] => ""
  | [(k, v)] => "\"" ++ jsonEscape k.data ++ "\":" ++ jsonStringify v
  | (_, .undef) :: fs => jsonStringifyFields fs
  | (k, v) :: fs => "\"" ++ jsonEscape k.data ++ "\":" ++ jsonStringify v ++ "," ++ jsonStringifyFields fs
end

/-- The options record `callApi` hands to `UrlFetchApp.fetch`. -/
structure FetchOpts where
  method : String
  muteHttpExceptions : Bool
  contentType : String
  headers : JsVal
  payload : JsVal
  validateHttpsCertificates : Bool
  followRedirects : Bool
  timeout : Int

/-- An HTTP response as `callApi` reads it: `getResponseCode()` and
`getContentText()`. -/
structure HttpResponse where
  code : Int
  body : String

/-- The `fetchOptions` literal built inside `callApi` from its `options`
argument. -/
def buildFetchOpts (options : JsVal) : FetchOpts :=
  { method :=
      (let m := getProp options "method"
       if truthy m && isStr m then strToUpper (asString m) else "GET"),
    muteHttpExceptions := true,
    contentType := "application/json",
    headers := (let h := getProp options "headers"; if truthy h then h else .obj []),
    payload :=
      (let p := getProp options "payload"
       if truthy p && isStr p then p
       else if truthy p then .str (jsonStringify p)
       else .null),
    validateHttpsCertificates := true,
    followRedirects := true,
    timeout := (let t := getProp options "timeout"; if isNum t then asNum t else 30000) }

/-- `UtilityService.callApi(url, options)`.  `transport` is the
`UrlFetchApp.fetch` oracle (`Except.error` is a thrown transport
exception), `jsonParse` the `JSON.parse` oracle.  The elapsed-time
`Logger.log` line is a pure side effect with no data flow and is elided. -/
def callApi (url options : JsVal)
    (transport : String → FetchOpts → Except String HttpResponse)
    (jsonParse : String → Option JsVal) : Except String JsVal :=
  if !isStr url || asString url == "" then
    .error ("callApi: url must be a non-empty string")
  else
    let options := if truthy options then options else .obj []
    let fo := buildFetchOpts options
    match transport (asString url) fo with
    | .error e => .error ("callApi: request failed for " ++ asString url ++ " - " ++ e)
    | .ok resp =>
      if resp.code < 200 || resp.code ≥ 300 then
        .error ("callApi: HTTP " ++ toString resp.code ++ " - " ++ resp.body)
      else match jsonParse resp.body with
      | some v => .ok v
      | none => .error ("callApi: JSON parse error - Unexpected token in JSON")

/-- A time-based schedule of a project trigger. -/
inductive Schedule : Type where
  | everyHours : Int → Schedule
  | everyMinutes : Int → Schedule
deriving DecidableEq

/-- A project trigger, identified by the handler function it invokes. -/
structure Trigger where
  handlerFunction : String
  schedule : Schedule
deriving DecidableEq

/-- `setupTriggers()` from Code.gs, as a function on the project trigger
list: create an hourly `fetchData` trigger unless one already exists. -/
def setupTriggers (triggers : List Trigger) : List Trigger :=
  if triggers.any (fun t => t.handlerFunction == "fetchData") then triggers
  else triggers ++ [{ handlerFunction := "fetchData", schedule := .everyHours 1 }]

/-- The value `writeData` returns on success. -/
structure WriteResult where
  success : Bool
  rows : Nat
deriving DecidableEq

/-- Everything observable about one `fetchData()` run: the try/catch result
and the side effects (URLs fetched, calls to the sheet writer, the project
trigger list, logged messages). -/
structure RunOutcome where
  result : Except String WriteResult
  fetchedUrls : List String
  writerCalls : List (List JsVal)
  triggers : List Trigger
  loggedErrors : List String
  loggedSuccess : List String

/-- The `config.endpoints.forEach` loop of `fetchData`: fetch each endpoint
with the bearer Authorization header, `JSON.parse` the body, call
`validateResponse(json)` (one argument, so `requiredKeys` is `undefined`),
and append `json.data` elements when `data` is an array.  Returns the
aggregated data, the URLs fetched, and the first thrown error if any. -/
def fetchLoop (apiUrl : JsVal) (auth : String)
    (transport : String → String → Except String String)
    (jsonParse : String → Option JsVal) :
    List JsVal → List JsVal → List String → (List JsVal × List String × Option String)
  | [], allData, fetched => (allData, fetched, none)
  | e :: rest, allData, fetched =>
    let url := jsToString apiUrl ++ jsToString e
    match transport url auth with
    | .error msg => (allData, fetched ++ [url], some msg)
    | .ok body =>
      match jsonParse body with
      | none => (allData, fetched ++ [url], some ("SyntaxError: Unexpected token in JSON"))
      | some json =>
        match validateResponse json .undef with
        | .error msg => (allData, fetched ++ [url], some msg)
        | .ok _ =>
          let allData := if isArr (getProp json "data") then allData ++ elems (getProp json "data") else allData
          fetchLoop apiUrl auth transport jsonParse rest allData (fetched ++ [url])

/-- `fetchData()` from Code.gs.  `config` is what the `getApiConfig`
accessor named by the claim sources returns; `transport` is the
`UrlFetchApp.fetch(url, options).getContentText()` oracle receiving the
URL and the Authorization header (the other options are the literal in the
source, with `muteHttpExceptions: true`); `writer` stands for `writeData`.
The catch block logs the error and rethrows it unmodified. -/
def fetchData (config : JsVal)
    (transport : String → String → Except String String)
    (jsonParse : String → Option JsVal)
    (writer : List JsVal → Except String WriteResult)
    (triggers0 : List Trigger) : RunOutcome :=
  if !truthy config || !truthy (getProp config "apiUrl") || !isArr (getProp config "endpoints") then
    { result := .error ("Invalid API configuration"), fetchedUrls := [], writerCalls := [],
      triggers := triggers0, loggedErrors := ["Invalid API configuration"], loggedSuccess := [] }
  else
    let auth := "Bearer " ++ jsToString (getProp config "apiKey")
    match fetchLoop (getProp config "apiUrl") auth transport jsonParse (elems (getProp config "endpoints")) [] [] with
    | (_, fetched, some msg) =>
      { result := .error msg, fetchedUrls := fetched, writerCalls := [], triggers := triggers0,
        loggedErrors := [msg], loggedSuccess := [] }
    | (allData, fetched, none) =>
      match writer allData with
      | .error msg =>
        { result := .error msg, fetchedUrls := fetched, writerCalls := [allData], triggers := triggers0,
          loggedErrors := [msg], loggedSuccess := [] }
      | .ok wr =>
        { result := .ok wr, fetchedUrls := fetched, writerCalls := [allData],
          triggers := setupTriggers triggers0, loggedErrors := [],
          loggedSuccess := ["Data fetch complete: " ++ toString wr.rows ++ " rows written."] }

/-- A rectangle of cells, 1-based, as `getRange` denotes one. -/
structure CellRect where
  row : Nat
  col : Nat
  numRows : Nat
  numCols : Nat
deriving DecidableEq

/-- A sheet as a grid of cell values (1-based row and column). -/
def Sheet : Type := Nat → Nat → JsVal

/-- The active spreadsheet: named sheets plus the active sheet. -/
structure Spreadsheet where
  sheets : String → Option Sheet
  active : Sheet

/-- Sheet resolution in `writeData`:
`ranges.sheetName ? ss.getSheetByName(...) || ss.getActiveSheet() : ss.getActiveSheet()`. -/
def selectSheet (ss : Spreadsheet) (ranges : JsVal) : Sheet :=
  if truthy (getProp ranges "sheetName") then
    match ss.sheets (jsToString (getProp ranges "sheetName")) with
    | some sh => sh
    | none => ss.active
  else ss.active

/-- `range.clearContent()`: cells inside the rectangle become blank. -/
def clearRect (sh : Sheet) (rect : CellRect) : Sheet :=
  fun r c =>
    if rect.row ≤ r ∧ r < rect.row + rect.numRows ∧ rect.col ≤ c ∧ c < rect.col + rect.numCols then
      .str ""
    else sh r c

/-- `writeRange.setValues(data)` on the block of `rows × cols` cells whose
top-left corner is `(top, left)`. -/
def setValuesBlock (sh : Sheet) (top left rows cols : Nat) (data : List (List JsVal)) : Sheet :=
  fun r c =>
    if top ≤ r ∧ r < top + rows ∧ left ≤ c ∧ c < left + cols then
      ((data.getD (r - top) []).getD (c - left) .undef)
    else sh r c

/-- Everything observable about one `writeData` call: the try/catch result,
the final state of the target sheet, and every `clearContent` rectangle. -/
structure WriteOutcome where
  result : Except String WriteResult
  sheetAfter : Sheet
  clearedRects : List CellRect

/-- `writeData(data)` from Code.gs, over the ranges object it reads from
`getSheetRanges()`.  `resolve` is the A1-notation oracle mapping a range
expression to its rectangle on the sheet. -/
def writeData (data ranges : JsVal) (ss : Spreadsheet)
    (resolve : String → CellRect) : WriteOutcome :=
  if !isArr data || (elems data).length == 0 || !isArr ((elems data).headD .undef) then
    { result := .error ("writeData received invalid data format"),
      sheetAfter := selectSheet ss ranges, clearedRects := [] }
  else
    let sheet := selectSheet ss ranges
    let rows := (elems data).length
    let cols := (elems ((elems data).headD .undef)).length
    let dataRows := (elems data).map elems
    if truthy (getProp ranges "fullRefresh") then
      let rect := resolve (jsToString (getProp ranges "fullRefreshRange"))
      let cleared := clearRect sheet rect
      { result := .ok { success := true, rows := rows },
        sheetAfter := setValuesBlock cleared rect.row rect.col rows cols dataRows,
        clearedRects := [rect] }
    else
      let rect := resolve (jsToString (getProp ranges "incrementalRange"))
      { result := .ok { success := true, rows := rows },
        sheetAfter := setValuesBlock sheet rect.row rect.col rows cols dataRows,
        clearedRects := [] }

/-- The read operations the config module exposes after construction. -/
inductive ConfigOp : Type where
  | apiConfigOp : ConfigOp
  | sheetRangesOp : ConfigOp
  | triggerNameOp : ConfigOp
  | rawConfigOp : ConfigOp
deriving DecidableEq

/-- One exposed accessor, as a transformer of the module state `_config`
paired with the value handed out.  None of the accessors in the source
assigns to `_config` (it is also frozen), so each is a pure read. -/
def configStep (c : JsVal) : ConfigOp → JsVal × JsVal
  | .apiConfigOp => (c, getApiConfig c)
  | .sheetRangesOp => (c, getSheetRanges c)
  | .triggerNameOp => (c, getTriggerName c)
  | .rawConfigOp => (c, c)

/-- Run a sequence of accessor calls against the module state, collecting
the handed-out values. -/
def runConfigOps (c : JsVal) : List ConfigOp → JsVal × List JsVal
  | [] => (c, [])
  | op :: ops =>
    let (c1, out) := configStep c op
    let (c2, outs) := runConfigOps c1 ops
    (c2, out :: outs)

def petApiConfig : JsVal := .obj
  [ ("apiUrl", .str ("https://api.example.com/petsync")),
    ("apiKey", .str ("secret")),
    ("endpoints", .obj [("fetchPets", .str ("/pets")), ("fetchOwners", .str ("/owners"))]) ]

def petApiConfigArr : JsVal := .obj
  [ ("apiUrl", .str ("https://api.example.com/petsync")),
    ("apiKey", .str ("secret")),
    ("endpoints", .arr [.str ("/pets"), .str ("/owners")]) ]

def c1Transport : String → String → Except String String :=
  fun url _ =>
    if url == "https://api.example.com/petsync/pets" then .ok ("petsBody") else .ok ("ownersBody")

def c1Parse : String → Option JsVal :=
  fun b =>
    if b == "petsBody" then some (.obj [("data", .arr [.str ("r1"), .str ("r2")])])
    else if b == "ownersBody" then some (.obj [("data", .arr [.str ("r3")])])
    else none

def c1Writer : List JsVal → Except String WriteResult :=
  fun rows => .ok { success := true, rows := rows.length }

def c2Transport : String → String → Except String String :=
  fun url _ =>
    if url == "https://api.example.com/petsync/pets" then .ok ("petsBody")
    else .error ("HttpStatusError: 404 Not Found")

def c8Config : JsVal := .obj
  [ ("apiUrl", .str ("https://api.example.com/petsync")),
    ("apiKey", .str ("secret")),
    ("endpoints", .obj []),
    ("sheetName", .str ("Pets")),
    ("fullRefreshRange", .str ("A2:Z")),
    ("incrementalRefreshRange", .str ("A2:Z")),
    ("triggerName", .str ("PetSync_FetchData")) ]

instance {ε α : Type} [DecidableEq ε] [DecidableEq α] : DecidableEq (Except ε α) :=
  fun a b =>
    match a, b with
    | .ok x, .ok y => if h : x = y then .isTrue (by rw [h]) else .isFalse (by simp [h])
    | .error x, .error y => if h : x = y then .isTrue (by rw [h]) else .isFalse (by simp [h])
    | .ok _, .error _ => .isFalse (by simp)
    | .error _, .ok _ => .isFalse (by simp)

/-- Boolean well-formedness of an endpoints-like override object, as
`loadOverrides` produces from a parsed JSON object of paths: distinct keys
and string values. -/
def strShapedB (efs : List (String × JsVal)) : Bool :=
  decide ((efs.map Prod.fst).Nodup) && efs.all (fun q => isStr q.2)

/-- Boolean well-formedness of an overrides object of the shape
`loadOverrides` produces: distinct keys, string values for the flat keys
and an object of string paths for `endpoints`-like keys. -/
def overrideShapedB (ofs : List (String × JsVal)) : Bool :=
  decide ((ofs.map Prod.fst).Nodup) &&
    ofs.all (fun p =>
      isStr p.2 ||
        (match p.2 with
         | .obj efs => strShapedB efs
         | _ => false))

def c3Ov : List (String × JsVal) :=
  [("apiKey", .str ("secret")), ("endpoints", .obj [("fetchPets", .str ("/cats"))])]

def c3Merged : JsVal := .obj
  [ ("apiUrl", .str ("https://api.example.com/petsync")),
    ("apiKey", .str ("secret")),
    ("endpoints", .obj [("fetchPets", .str ("/cats")), ("fetchOwners", .str ("/owners"))]),
    ("sheetName", .str ("Pets")),
    ("fullRefreshRange", .str ("A2:Z")),
    ("incrementalRefreshRange", .str ("A2:Z")),
    ("triggerName", .str ("PetSync_FetchData")) ]

def c10Sheet : Sheet := fun _ _ => .null

def c10Spread : Spreadsheet := { sheets := fun _ => none, active := c10Sheet }

def c10Resolve : String → CellRect := fun _ => { row := 2, col := 1, numRows := 0, numCols := 0 }

def petFullConfig : JsVal := .obj
  [ ("apiUrl", .str ("https://api.example.com/petsync")),
    ("apiKey", .str ("secret")),
    ("endpoints", .obj [("fetchPets", .str ("/pets")), ("fetchOwners", .str ("/owners"))]),
    ("sheetName", .str ("Pets")),
    ("fullRefreshRange", .str ("A2:Z")),
    ("incrementalRefreshRange", .str ("A2:Z")),
    ("triggerName", .str ("PetSync_FetchData")) ]

/-- C1: claimed — over a two-endpoint configuration whose first endpoint
returns `{data:[r1,r2]}` and second `{data:[r3]}`, `fetchData` passes
exactly `[r1,r2,r3]` to the sheet writer and returns
`{success:true, rows:3}`.  The code cannot do this: the configuration that
`Config.getApiConfig` hands out stores `endpoints` as a plain object, so
`Array.isArray(config.endpoints)` fails and `fetchData` throws
`Invalid API configuration` before fetching anything; and even with an
array of endpoint paths, `fetchData` calls `validateResponse(json)` with
one argument, so `validateResponse` throws its `requiredKeys` error on the
first response.  Either way the writer is never invoked and no
`{success:true, rows:3}` is returned. -/
theorem c1_sync_pipeline_code_bug :
    (fetchData petApiConfig c1Transport c1Parse c1Writer []).result
        = .error ("Invalid API configuration")
  ∧ (fetchData petApiConfig c1Transport c1Parse c1Writer []).writerCalls = []
  ∧ (fetchData petApiConfig c1Transport c1Parse c1Writer []).fetchedUrls = []
  ∧ (fetchData petApiConfigArr c1Transport c1Parse c1Writer []).result
        = .error ("validateResponse: requiredKeys must be an array of strings")
  ∧ (fetchData petApiConfigArr c1Transport c1Parse c1Writer []).writerCalls = []
  ∧ ¬ (fetchData petApiConfigArr c1Transport c1Parse c1Writer []).result
        = .ok { success := true, rows := 3 } :=
  ⟨rfl, rfl, rfl, rfl, rfl, by decide⟩

/-- C2: claimed — with at least two endpoints, an error on a non-last
endpoint call (for example an HTTP-status error on the second of two)
means the writer is never invoked and that error is re-raised unmodified
after being logged.  The no-write half holds, but the code never reaches
the second endpoint call: `validateResponse(json)` (called with one
argument) throws on the first response, so the error `fetchData` logs and
re-raises is the `requiredKeys` error, not the second endpoint's
HTTP-status error. -/
theorem c2_error_propagation_code_bug :
    (fetchData petApiConfigArr c2Transport c1Parse c1Writer []).writerCalls = []
  ∧ (fetchData petApiConfigArr c2Transport c1Parse c1Writer []).fetchedUrls
        = ["https://api.example.com/petsync/pets"]
  ∧ (fetchData petApiConfigArr c2Transport c1Parse c1Writer []).result
        = .error ("validateResponse: requiredKeys must be an array of strings")
  ∧ (fetchData petApiConfigArr c2Transport c1Parse c1Writer []).loggedErrors
        = ["validateResponse: requiredKeys must be an array of strings"]
  ∧ ¬ (fetchData petApiConfigArr c2Transport c1Parse c1Writer []).result
        = .error ("HttpStatusError: 404 Not Found") :=
  ⟨rfl, rfl, rfl, rfl, by decide⟩

/-- C7: the trigger-ensuring operation is idempotent — if a `fetchData`
trigger exists it takes no action, otherwise it appends exactly one hourly
trigger; applying it twice equals applying it once, and from a state with
no `fetchData` trigger, two applications leave exactly one. -/
theorem c7_trigger_ensure_idempotent :
    (∀ ts : List Trigger, ts.any (fun t => t.handlerFunction == "fetchData") = true →
        setupTriggers ts = ts)
  ∧ (∀ ts : List Trigger, ts.any (fun t => t.handlerFunction == "fetchData") = false →
        setupTriggers ts = ts ++ [{ handlerFunction := "fetchData", schedule := .everyHours 1 }])
  ∧ (∀ ts : List Trigger, setupTriggers (setupTriggers ts) = setupTriggers ts)
  ∧ (∀ ts : List Trigger,
        (ts.filter (fun t => t.handlerFunction == "fetchData")).length = 0 →
        ((setupTriggers (setupTriggers ts)).filter
            (fun t => t.handlerFunction == "fetchData")).length = 1) := by
  refine ⟨fun ts h => by simp [setupTriggers, h], fun ts h => by simp [setupTriggers, h], ?_, ?_⟩
  · intro ts
    by_cases h : ts.any (fun t => t.handlerFunction == "fetchData") = true
    · simp [setupTriggers, h]
    · simp only [Bool.not_eq_true] at h
      simp [setupTriggers, h, List.any_append]
  · intro ts h
    have hnil : ts.filter (fun t => t.handlerFunction == "fetchData") = [] :=
      List.length_eq_zero.mp h
    have hany : ts.any (fun t => t.handlerFunction == "fetchData") = false := by
      rw [List.any_eq_false]
      intro x hx
      intro hfx
      have : x ∈ ts.filter (fun t => t.handlerFunction == "fetchData") :=
        List.mem_filter.mpr ⟨hx, hfx⟩
      simp [hnil] at this
    simp [setupTriggers, hany, List.any_append, List.filter_append, hnil]

/-- C8: a configuration whose endpoints mapping is empty passes `validate`
(zero entries, zero violations), and running the sync pipeline with the
API view of that configuration performs no endpoint fetch and no write. -/
theorem c8_empty_endpoints_valid_and_fetchless :
    validate c8Config = .ok ()
  ∧ checkEndpoints (ownFields (.obj [])) = .ok ()
  ∧ ∀ (transport : String → String → Except String String) (jp : String → Option JsVal)
      (w : List JsVal → Except String WriteResult) (ts : List Trigger),
      (fetchData (getApiConfig c8Config) transport jp w ts).fetchedUrls = []
      ∧ (fetchData (getApiConfig c8Config) transport jp w ts).writerCalls = [] :=
  ⟨rfl, rfl, fun _ _ _ _ => ⟨rfl, rfl⟩⟩

/-- C9: the config module state is never mutated by its read accessors —
running any sequence of the exposed operations leaves the underlying
configuration equal to the one produced at construction, and every value
handed out is the pure projection of that original configuration. -/
theorem c9_config_never_mutated :
    ∀ (c : JsVal) (ops : List ConfigOp),
      (runConfigOps c ops).1 = c
      ∧ (runConfigOps c ops).2 = ops.map (fun op => (configStep c op).2) := by
  intro c ops
  induction ops with
  | nil => exact ⟨rfl, rfl⟩
  | cons op ops ih =>
    cases op <;> simpa [runConfigOps, configStep] using ih

theorem checkRequired_ok_iff (r : JsVal) (ks : List JsVal) :
    checkRequired r ks = .ok () ↔ ∀ k ∈ ks, hasOwnProp r (jsToString k) = true := by
  induction ks with
  | nil => simp [checkRequired]
  | cons k ks ih =>
    by_cases h : hasOwnProp r (jsToString k) = true
    · simp [checkRequired, h, ih]
    · have h' : hasOwnProp r (jsToString k) = false := by simpa using h
      simp [checkRequired, h']

theorem any_fst_eq_map (key : String) :
    ∀ (fs : List (String × JsVal)),
      fs.any (fun p => p.1 == key) = (fs.map Prod.fst).any (fun a => a == key)
  | [] => rfl
  | _ :: fs => by simp [any_fst_eq_map key fs]

theorem hasOwnProp_obj_keys (fs1 fs2 : List (String × JsVal))
    (hmap : fs1.map Prod.fst = fs2.map Prod.fst) (key : String) :
    hasOwnProp (.obj fs1) key = hasOwnProp (.obj fs2) key := by
  simp [hasOwnProp, any_fst_eq_map key fs1, any_fst_eq_map key fs2, hmap]

theorem checkRequired_keys_only (fs1 fs2 : List (String × JsVal))
    (hmap : fs1.map Prod.fst = fs2.map Prod.fst) (ks : List JsVal) :
    checkRequired (.obj fs1) ks = checkRequired (.obj fs2) ks := by
  induction ks with
  | nil => rfl
  | cons k ks ih =>
    simp [checkRequired, hasOwnProp_obj_keys fs1 fs2 hmap (jsToString k), ih]

/-- C6: `validateResponse` on `({a:1}, ['a','b'])` fails naming `b`; on
`({a:1,b:2}, ['a','b'])` it succeeds; in general it rejects exactly the
non-object or null responses, the non-array `requiredKeys`, and the
responses missing some required key as a property — and the presence check
never inspects the keys' values (two objects with the same key list
validate identically). -/
theorem c6_validateResponse_spec :
    validateResponse (.obj [("a", .num 1)]) (.arr [.str ("a"), .str ("b")])
        = .error ("validateResponse: missing required key \"b\"")
  ∧ validateResponse (.obj [("a", .num 1), ("b", .num 2)]) (.arr [.str ("a"), .str ("b")])
        = .ok true
  ∧ (∀ (r k : JsVal), typeofObject r = false ∨ isNull r = true →
        validateResponse r k = .error ("validateResponse: response must be a non-null object"))
  ∧ (∀ (r k : JsVal), typeofObject r = true → isNull r = false → isArr k = false →
        validateResponse r k = .error ("validateResponse: requiredKeys must be an array of strings"))
  ∧ (∀ (r : JsVal) (ks : List JsVal), typeofObject r = true → isNull r = false →
        (validateResponse r (.arr ks) = .ok true ↔ ∀ k ∈ ks, hasOwnProp r (jsToString k) = true))
  ∧ (∀ (fs1 fs2 : List (String × JsVal)) (k : JsVal),
        fs1.map Prod.fst = fs2.map Prod.fst →
        validateResponse (.obj fs1) k = validateResponse (.obj fs2) k) := by
  refine ⟨rfl, rfl, ?_, ?_, ?_, ?_⟩
  · intro r k h
    rcases h with h | h <;> simp [validateResponse, h]
  · intro r k h1 h2 h3
    simp [validateResponse, h1, h2, h3]
  · intro r ks h1 h2
    have hval : validateResponse r (.arr ks)
        = (match checkRequired r ks with
           | .error e => (.error e : Except String Bool)
           | .ok _ => .ok true) := by
      simp [validateResponse, h1, h2, isArr, elems]
    rw [hval]
    cases hcr : checkRequired r ks with
    | error e =>
      have hnot : ¬ ∀ k ∈ ks, hasOwnProp r (jsToString k) = true := by
        rw [← checkRequired_ok_iff r ks, hcr]
        simp
      exact iff_of_false (by simp) hnot
    | ok u =>
      cases u
      exact iff_of_true rfl ((checkRequired_ok_iff r ks).mp hcr)
  · intro fs1 fs2 k hmap
    cases hk : isArr k with
    | false => simp [validateResponse, hk, typeofObject, isNull]
    | true =>
      simp [validateResponse, hk, typeofObject, isNull,
        checkRequired_keys_only fs1 fs2 hmap (elems k)]

/-- Closed witness for the quantified parts of the `validateResponse`
characterization, applying the theorem at concrete inputs. -/
theorem c6_validateResponse_spec_witness :
    validateResponse .null (.arr [.str ("a")])
        = .error ("validateResponse: response must be a non-null object")
  ∧ validateResponse (.obj []) .undef
        = .error ("validateResponse: requiredKeys must be an array of strings")
  ∧ validateResponse (.obj [("a", .num 1)]) (.arr [.str ("a")]) = .ok true :=
  ⟨c6_validateResponse_spec.2.2.1 .null (.arr [.str ("a")]) (Or.inr rfl),
   c6_validateResponse_spec.2.2.2.1 (.obj []) .undef rfl rfl rfl,
   (c6_validateResponse_spec.2.2.2.2.1 (.obj [("a", .num 1)]) [.str ("a")] rfl rfl).mpr
     (by intro k hk; simp at hk; subst hk; rfl)⟩

/-- C5: `callApi` issues the request with `muteHttpExceptions: true` (so a
non-2xx status does not throw before the call completes) and inspects the
status only afterwards: a 404 response makes it raise the HTTP-status
error carrying the code 404 and the raw body, while a status in
`[200,300)` with a JSON-parsable body returns the parsed value. -/
theorem c5_callApi_status_handling :
    ∀ (url opts : JsVal) (transport : String → FetchOpts → Except String HttpResponse)
      (jp : String → Option JsVal),
      isStr url = true → asString url ≠ "" →
      (buildFetchOpts (if truthy opts then opts else .obj [])).muteHttpExceptions = true
      ∧ (∀ body : String,
          transport (asString url) (buildFetchOpts (if truthy opts then opts else .obj []))
              = .ok { code := 404, body := body } →
          callApi url opts transport jp = .error ("callApi: HTTP 404 - " ++ body))
      ∧ (∀ (code : Int) (body : String) (v : JsVal),
          transport (asString url) (buildFetchOpts (if truthy opts then opts else .obj []))
              = .ok { code := code, body := body } →
          200 ≤ code → code < 300 → jp body = some v →
          callApi url opts transport jp = .ok v) := by
  intro url opts transport jp h1 h2
  have hcond : (!isStr url || asString url == "") = false := by simp [h1, h2]
  refine ⟨rfl, ?_, ?_⟩
  · intro body htr
    simp [callApi, hcond, htr]
    rfl
  · intro code body v htr hle hlt hjp
    have hcode : (decide (code < 200) || decide (code ≥ 300)) = false := by
      simp only [Bool.or_eq_false_iff, decide_eq_false_iff_not]
      omega
    simp [callApi, hcond, htr, hjp, hcode]

/-- Closed witness for the `callApi` status characterization, applied at a
concrete URL, transport and parser. -/
theorem c5_callApi_status_handling_witness :
    callApi (.str ("https://api.example.com/petsync/pets")) .null
        (fun _ _ => .ok { code := 404, body := "missing pet" }) (fun _ => none)
      = .error ("callApi: HTTP 404 - missing pet")
  ∧ callApi (.str ("https://api.example.com/petsync/pets")) .null
        (fun _ _ => .ok { code := 200, body := "numbers" })
        (fun b => if b == "numbers" then some (.arr [.num 1]) else none)
      = .ok (.arr [.num 1]) :=
  ⟨(c5_callApi_status_handling (.str ("https://api.example.com/petsync/pets")) .null
        (fun _ _ => .ok { code := 404, body := "missing pet" }) (fun _ => none)
        rfl (by decide)).2.1 "missing pet" rfl,
   (c5_callApi_status_handling (.str ("https://api.example.com/petsync/pets")) .null
        (fun _ _ => .ok { code := 200, body := "numbers" })
        (fun b => if b == "numbers" then some (.arr [.num 1]) else none)
        rfl (by decide)).2.2 200 "numbers" (.arr [.num 1]) rfl (by norm_num) (by norm_num) rfl⟩

/-- C10: the ranges object `getSheetRanges` hands to `writeData` carries no
`fullRefresh` field (but does carry the `incrementalRange` alias of
`incrementalRefreshRange`), so the full-refresh branch is never taken: no
range is ever cleared, the write block starts at the top-left cell of the
resolved incremental range, and every cell outside the written
rows-by-columns block keeps its previous value. -/
theorem c10_incremental_write_frame :
    (∀ c : JsVal, hasOwnProp (getSheetRanges c) "fullRefresh" = false)
  ∧ (∀ c : JsVal,
      getProp (getSheetRanges c) "incrementalRange" = getProp c "incrementalRefreshRange")
  ∧ (∀ (c data : JsVal) (ss : Spreadsheet) (resolve : String → CellRect),
      (writeData data (getSheetRanges c) ss resolve).clearedRects = [])
  ∧ (∀ (c data : JsVal) (ss : Spreadsheet) (resolve : String → CellRect),
      isArr data = true → elems data ≠ [] → isArr ((elems data).headD .undef) = true →
      (writeData data (getSheetRanges c) ss resolve).result
          = .ok { success := true, rows := (elems data).length }
      ∧ (∀ r cc : Nat,
          (r < (resolve (jsToString (getProp c "incrementalRefreshRange"))).row
            ∨ (resolve (jsToString (getProp c "incrementalRefreshRange"))).row
                + (elems data).length ≤ r
            ∨ cc < (resolve (jsToString (getProp c "incrementalRefreshRange"))).col
            ∨ (resolve (jsToString (getProp c "incrementalRefreshRange"))).col
                + (elems ((elems data).headD .undef)).length ≤ cc) →
          (writeData data (getSheetRanges c) ss resolve).sheetAfter r cc
            = selectSheet ss (getSheetRanges c) r cc)
      ∧ (∀ r cc : Nat,
          (resolve (jsToString (getProp c "incrementalRefreshRange"))).row ≤ r →
          r < (resolve (jsToString (getProp c "incrementalRefreshRange"))).row
                + (elems data).length →
          (resolve (jsToString (getProp c "incrementalRefreshRange"))).col ≤ cc →
          cc < (resolve (jsToString (getProp c "incrementalRefreshRange"))).col
                + (elems ((elems data).headD .undef)).length →
          (writeData data (getSheetRanges c) ss resolve).sheetAfter r cc
            = (((elems data).map elems).getD
                (r - (resolve (jsToString (getProp c "incrementalRefreshRange"))).row) []).getD
                (cc - (resolve (jsToString (getProp c "incrementalRefreshRange"))).col) .undef)) := by
  refine ⟨fun c => rfl, fun c => rfl, ?_, ?_⟩
  · intro c data ss resolve
    have hfr : truthy (getProp (getSheetRanges c) "fullRefresh") = false := rfl
    unfold writeData
    split
    · rfl
    · split
      · next h => rw [hfr] at h; exact absurd h (by simp)
      · rfl
  · intro c data ss resolve h1 h2 h3
    have hfr : truthy (getProp (getSheetRanges c) "fullRefresh") = false := rfl
    have hg : (!isArr data || (elems data).length == 0 || !isArr ((elems data).headD .undef)) = false := by
      simp [h1, List.length_eq_zero, h2]
      rw [← List.headD_eq_head?_getD]
      exact h3
    have hw : writeData data (getSheetRanges c) ss resolve
        = { result := .ok { success := true, rows := (elems data).length },
            sheetAfter := setValuesBlock (selectSheet ss (getSheetRanges c))
              (resolve (jsToString (getProp c "incrementalRefreshRange"))).row
              (resolve (jsToString (getProp c "incrementalRefreshRange"))).col
              (elems data).length (elems ((elems data).headD .undef)).length
              ((elems data).map elems),
            clearedRects := [] } := by
      unfold writeData
      split
      · next h => rw [hg] at h; exact absurd h (by simp)
      · split
        · next h => rw [hfr] at h; exact absurd h (by simp)
        · rfl
    have hres : (writeData data (getSheetRanges c) ss resolve).result
        = .ok { success := true, rows := (elems data).length } := by
      rw [hw]
    have hwsa : (writeData data (getSheetRanges c) ss resolve).sheetAfter
        = setValuesBlock (selectSheet ss (getSheetRanges c))
            (resolve (jsToString (getProp c "incrementalRefreshRange"))).row
            (resolve (jsToString (getProp c "incrementalRefreshRange"))).col
            (elems data).length (elems ((elems data).headD .undef)).length
            ((elems data).map elems) := by
      rw [hw]
    refine ⟨hres, ?_, ?_⟩
    · intro r cc hout
      rw [hwsa]
      unfold setValuesBlock
      rw [if_neg]
      omega
    · intro r cc hr1 hr2 hc1 hc2
      rw [hwsa]
      unfold setValuesBlock
      rw [if_pos]
      exact ⟨hr1, hr2, hc1, hc2⟩

/-- Closed witness for the incremental write frame property, applied to a
one-row write against a blank sheet. -/
theorem c10_incremental_write_frame_witness :
    (writeData (.arr [.arr [.num 1, .num 2]]) (getSheetRanges c8Config) c10Spread c10Resolve).result
        = .ok { success := true, rows := 1 }
  ∧ (writeData (.arr [.arr [.num 1, .num 2]]) (getSheetRanges c8Config) c10Spread c10Resolve).sheetAfter 10 10
        = selectSheet c10Spread (getSheetRanges c8Config) 10 10 :=
  ⟨(c10_incremental_write_frame.2.2.2 c8Config (.arr [.arr [.num 1, .num 2]]) c10Spread c10Resolve
      rfl (by simp [elems]) rfl).1,
   (c10_incremental_write_frame.2.2.2 c8Config (.arr [.arr [.num 1, .num 2]]) c10Spread c10Resolve
      rfl (by simp [elems]) rfl).2.1 10 10 (by right; left; decide)⟩

theorem loadOverridesGo_step_ne (jp : String → Option JsVal) (key v : String)
    (rest : List (String × String)) (acc : List (String × JsVal))
    (hk : ¬ key = "ENDPOINTS") :
    ∃ acc', loadOverridesGo jp ((key, v) :: rest) acc = loadOverridesGo jp rest acc' := by
  by_cases h1 : (key == "API_URL") = true
  · exact ⟨setField acc "apiUrl" (.str v), by simp [loadOverridesGo, h1]⟩
  by_cases h2 : (key == "API_KEY") = true
  · exact ⟨setField acc "apiKey" (.str v), by simp [loadOverridesGo, h1, h2]⟩
  have h3 : ¬ (key == "ENDPOINTS") = true := by simp [hk]
  by_cases h4 : (key == "SHEET_NAME") = true
  · exact ⟨setField acc "sheetName" (.str v), by simp [loadOverridesGo, h1, h2, h3, h4]⟩
  by_cases h5 : (key == "FULL_REFRESH_RANGE") = true
  · exact ⟨setField acc "fullRefreshRange" (.str v),
      by simp [loadOverridesGo, h1, h2, h3, h4, h5]⟩
  by_cases h6 : (key == "INCREMENTAL_REFRESH_RANGE") = true
  · exact ⟨setField acc "incrementalRefreshRange" (.str v),
      by simp [loadOverridesGo, h1, h2, h3, h4, h5, h6]⟩
  by_cases h7 : (key == "TRIGGER_NAME") = true
  · exact ⟨setField acc "triggerName" (.str v),
      by simp [loadOverridesGo, h1, h2, h3, h4, h5, h6, h7]⟩
  exact ⟨acc, by simp [loadOverridesGo, h1, h2, h3, h4, h5, h6, h7]⟩

theorem loadOverridesGo_endpoints_error (jp : String → Option JsVal) (val : String)
    (hjp : jp val = none) :
    ∀ (props : List (String × String)) (acc : List (String × JsVal)),
      ("ENDPOINTS", val) ∈ props →
      loadOverridesGo jp props acc = .error ("Invalid JSON for ENDPOINTS in PropertiesService")
  | [], _ => by intro h; cases h
  | (key, v) :: rest, acc => by
    intro hmem
    rcases List.mem_cons.mp hmem with heq | hrest
    · have hkv : "ENDPOINTS" = key ∧ val = v := by
        constructor
        · exact congrArg Prod.fst heq
        · exact congrArg Prod.snd heq
      obtain ⟨hk, hv⟩ := hkv
      subst hk
      subst hv
      simp [loadOverridesGo, hjp]
    · by_cases hk : key = "ENDPOINTS"
      · subst hk
        have hred : loadOverridesGo jp (("ENDPOINTS", v) :: rest) acc
            = (match jp v with
               | some j => loadOverridesGo jp rest (setField acc "endpoints" j)
               | none => .error ("Invalid JSON for ENDPOINTS in PropertiesService")) := by
          simp [loadOverridesGo]
        rw [hred]
        cases hv : jp v with
        | none => rfl
        | some j => exact loadOverridesGo_endpoints_error jp val hjp rest _ hrest
      · obtain ⟨acc', hstep⟩ := loadOverridesGo_step_ne jp key v rest acc hk
        rw [hstep]
        exact loadOverridesGo_endpoints_error jp val hjp rest acc' hrest

theorem checkEndpoints_ok :
    ∀ l, checkEndpoints l = .ok () →
      ∀ p ∈ l, isStr p.2 = true ∧ truthy p.2 = true
        ∧ strStartsWith (asString p.2) ("/") = true
  | [] => by intro _ p hp; cases hp
  | (name, path) :: rest => by
    intro h p hp
    unfold checkEndpoints at h
    by_cases h1 : (!isStr path || !truthy path) = true
    · rw [if_pos h1] at h
      exact Except.noConfusion h
    · rw [if_neg h1] at h
      by_cases h2 : (!strStartsWith (asString path) ("/")) = true
      · rw [if_pos h2] at h
        exact Except.noConfusion h
      · rw [if_neg h2] at h
        rcases List.mem_cons.mp hp with heq | hrest
        · subst heq
          have hp1 : isStr path = true ∧ truthy path = true := by
            revert h1
            cases isStr path <;> cases truthy path <;> simp
          have hp2 : strStartsWith (asString path) ("/") = true := by
            revert h2
            cases strStartsWith (asString path) ("/") <;> simp
          exact ⟨hp1.1, hp1.2, hp2⟩
        · exact checkEndpoints_ok rest h p hrest

theorem validate_ok_checkEndpoints (cfg : JsVal) (h : validate cfg = .ok ()) :
    checkEndpoints (ownFields (getProp cfg "endpoints")) = .ok () := by
  cases hce : checkEndpoints (ownFields (getProp cfg "endpoints")) with
  | ok u => cases u; rfl
  | error e =>
    exfalso
    unfold validate at h
    rw [hce] at h
    by_cases hA : (!truthy (getProp cfg "apiUrl") || !isStr (getProp cfg "apiUrl")
        || !isHttpUrl (asString (getProp cfg "apiUrl"))) = true
    · rw [if_pos hA] at h; exact Except.noConfusion h
    rw [if_neg hA] at h
    by_cases hB : (!truthy (getProp cfg "apiKey") || !isStr (getProp cfg "apiKey")) = true
    · rw [if_pos hB] at h; exact Except.noConfusion h
    rw [if_neg hB] at h
    by_cases hC : (!truthy (getProp cfg "endpoints")
        || !typeofObject (getProp cfg "endpoints")) = true
    · rw [if_pos hC] at h; exact Except.noConfusion h
    rw [if_neg hC] at h
    exact Except.noConfusion h

/-- C4: configuration construction fails with a descriptive error when the
`ENDPOINTS` override is not valid JSON, when the merged `apiKey` is absent
or empty (or otherwise falsy or not a string), and when some endpoint path
does not start with a slash (validation can only succeed when every
endpoint path is a nonempty string starting with a slash). -/
theorem c4_construction_failures :
    (∀ (sp up : List (String × String)) (jp : String → Option JsVal) (val : String),
        ("ENDPOINTS", val) ∈ assignProps (assignProps [] sp) up → jp val = none →
        buildConfig sp up jp = .error ("Invalid JSON for ENDPOINTS in PropertiesService"))
  ∧ (∀ cfg : JsVal,
        truthy (getProp cfg "apiUrl") = true → isStr (getProp cfg "apiUrl") = true →
        isHttpUrl (asString (getProp cfg "apiUrl")) = true →
        (truthy (getProp cfg "apiKey") = false ∨ isStr (getProp cfg "apiKey") = false) →
        validate cfg = .error ("Config validation failed: apiKey is required and must be a string"))
  ∧ (∀ (cfg : JsVal) (name : String) (p : JsVal),
        validate cfg = .ok () → (name, p) ∈ ownFields (getProp cfg "endpoints") →
        isStr p = true ∧ truthy p = true ∧ strStartsWith (asString p) ("/") = true) := by
  refine ⟨?_, ?_, ?_⟩
  · intro sp up jp val hmem hjp
    have herr : loadOverrides (assignProps (assignProps [] sp) up) jp
        = .error ("Invalid JSON for ENDPOINTS in PropertiesService") :=
      loadOverridesGo_endpoints_error jp val hjp _ [] hmem
    unfold buildConfig
    rw [herr]
    rfl
  · intro cfg h1 h2 h3 h4
    unfold validate
    rw [if_neg (by simp [h1, h2, h3])]
    rw [if_pos (by rcases h4 with h | h <;> simp [h])]
  · intro cfg name p hok hmem
    exact checkEndpoints_ok _ (validate_ok_checkEndpoints cfg hok) (name, p) hmem

/-- Closed witness for the construction-failure characterization: a
non-JSON `ENDPOINTS` property aborts construction, the all-defaults
configuration (empty `apiKey`) fails validation with the `apiKey` message,
and the default `/pets` endpoint of a fully valid configuration is
confirmed to start with a slash. -/
theorem c4_construction_failures_witness :
    buildConfig [("ENDPOINTS", "not json")] [] (fun _ => none)
        = .error ("Invalid JSON for ENDPOINTS in PropertiesService")
  ∧ validate DEFAULTS
        = .error ("Config validation failed: apiKey is required and must be a string")
  ∧ strStartsWith (asString (.str ("/pets"))) ("/") = true :=
  ⟨c4_construction_failures.1 [("ENDPOINTS", "not json")] [] (fun _ => none) "not json"
      (by decide) rfl,
   c4_construction_failures.2.1 DEFAULTS rfl rfl (by decide) (Or.inl rfl),
   (c4_construction_failures.2.2 petFullConfig "fetchPets" (.str ("/pets"))
      (by decide) (by decide)).2.2⟩

/-- Closed witness for the trigger idempotence properties, applied from the
empty trigger state. -/
theorem c7_trigger_ensure_idempotent_witness :
    setupTriggers [] = [{ handlerFunction := "fetchData", schedule := .everyHours 1 }]
  ∧ ((setupTriggers (setupTriggers [])).filter
      (fun t => t.handlerFunction == "fetchData")).length = 1 :=
  ⟨c7_trigger_ensure_idempotent.2.1 [] rfl,
   c7_trigger_ensure_idempotent.2.2.2 [] rfl⟩

theorem getProp_obj (fs : List (String × JsVal)) (k : String) :
    getProp (.obj fs) k = (fs.lookup k).getD .undef := rfl

theorem lookup_setField_self {α : Type} :
    ∀ (fs : List (String × α)) (k : String) (v : α), (setField fs k v).lookup k = some v
  | [], k, v => by simp [setField, List.lookup_cons]
  | (k0, v0) :: rest, k, v => by
    by_cases h : k0 = k
    · subst h
      simp [setField, List.lookup_cons]
    · have hb : (k0 == k) = false := by simp [h]
      have hb2 : (k == k0) = false := by simp [Ne.symm h]
      simp [setField, List.lookup_cons, hb, hb2, lookup_setField_self rest k v]

theorem lookup_setField_ne {α : Type} :
    ∀ (fs : List (String × α)) (k : String) (v : α) (k' : String), k' ≠ k →
      (setField fs k v).lookup k' = fs.lookup k'
  | [], k, v, k', hne => by
    have hb0 : (k' == k) = false := by simp [hne]
    simp [setField, List.lookup_cons, hb0]
  | (k0, v0) :: rest, k, v, k', hne => by
    by_cases h : k0 = k
    · subst h
      have hb : (k' == k0) = false := by simp [hne]
      simp [setField, List.lookup_cons, hb]
    · have hb : (k0 == k) = false := by simp [h]
      by_cases h2 : k' = k0
      · subst h2
        simp [setField, List.lookup_cons, hb]
      · have hb2 : (k' == k0) = false := by simp [h2]
        simp [setField, List.lookup_cons, hb, hb2, lookup_setField_ne rest k v k' hne]

theorem setField_self {α : Type} :
    ∀ (fs : List (String × α)) (k : String) (v : α), fs.lookup k = some v → setField fs k v = fs
  | [], k, v => by intro h; exact Option.noConfusion h
  | (k0, v0) :: rest, k, v => by
    intro h
    by_cases hb : k = k0
    · subst hb
      simp [List.lookup_cons] at h
      simp [setField, h]
    · have hb1 : (k == k0) = false := by simp [hb]
      have hb2 : (k0 == k) = false := by simp [Ne.symm hb]
      simp [List.lookup_cons, hb1] at h
      simp [setField, hb2, setField_self rest k v h]

theorem nodup_lookup {α : Type} :
    ∀ (fs : List (String × α)), (fs.map Prod.fst).Nodup →
      ∀ (k : String) (v : α), (k, v) ∈ fs → fs.lookup k = some v
  | [], _, k, v => by intro h; cases h
  | (k0, v0) :: rest, hnod, k, v => by
    intro hmem
    have hsplit : k0 ∉ rest.map Prod.fst ∧ (rest.map Prod.fst).Nodup := by
      rw [List.map_cons] at hnod
      exact List.nodup_cons.mp hnod
    obtain ⟨hknotin, hnodr⟩ := hsplit
    rcases List.mem_cons.mp hmem with heq | hrest
    · have hk : k = k0 := congrArg Prod.fst heq
      have hv : v = v0 := congrArg Prod.snd heq
      subst hk
      subst hv
      simp [List.lookup_cons]
    · have hk : k ≠ k0 := by
        intro he
        subst he
        exact hknotin (List.mem_map.mpr ⟨(k, v), hrest, rfl⟩)
      have hb : (k == k0) = false := by simp [hk]
      simp [List.lookup_cons, hb, nodup_lookup rest hnodr k v hrest]

theorem setField_undefFree :
    ∀ (fs : List (String × JsVal)) (k : String) (v : JsVal),
      undefFreeFields fs = true → undefFree v = true →
      undefFreeFields (setField fs k v) = true
  | [], k, v => by intro _ hv; simp [setField, undefFreeFields, hv]
  | (k0, v0) :: rest, k, v => by
    intro hf hv
    obtain ⟨h1, h2⟩ := by simpa [undefFreeFields, Bool.and_eq_true] using hf
    by_cases hb : (k0 == k) = true
    · simp [setField, hb, undefFreeFields, hv, h2]
    · have hb2 : (k0 == k) = false := by simpa using hb
      simp [setField, hb2, undefFreeFields, h1, setField_undefFree rest k v h2 hv]

theorem jsonCopyArr_cons_ne (x : JsVal) (xs : List JsVal) (hx : x ≠ .undef) :
    jsonCopyArr (x :: xs) = jsonCopy x :: jsonCopyArr xs := by
  cases x <;> first | (exact absurd rfl hx) | rfl

theorem jsonCopyFields_cons_ne (k : String) (v : JsVal) (fs : List (String × JsVal))
    (hv : v ≠ .undef) :
    jsonCopyFields ((k, v) :: fs) = (k, jsonCopy v) :: jsonCopyFields fs := by
  cases v <;> first | (exact absurd rfl hv) | rfl

mutual
def undefFree_jsonCopy : ∀ (v : JsVal), v ≠ .undef → undefFree (jsonCopy v) = true
  | .undef => fun h => absurd rfl h
  | .null => fun _ => rfl
  | .bool _ => fun _ => rfl
  | .num _ => fun _ => rfl
  | .str _ => fun _ => rfl
  | .arr xs => fun _ => by simpa [jsonCopy, undefFree] using undefFree_jsonCopyArr xs
  | .obj fs => fun _ => by simpa [jsonCopy, undefFree] using undefFree_jsonCopyFields fs

def undefFree_jsonCopyArr : ∀ (xs : List JsVal), undefFreeArr (jsonCopyArr xs) = true
  | [] => rfl
  | x :: xs => by
    by_cases hx : x = .undef
    · subst hx
      simpa [jsonCopyArr, undefFreeArr, undefFree] using undefFree_jsonCopyArr xs
    · rw [jsonCopyArr_cons_ne x xs hx]
      simp [undefFreeArr, undefFree_jsonCopy x hx, undefFree_jsonCopyArr xs]

def undefFree_jsonCopyFields : ∀ (fs : List (String × JsVal)), undefFreeFields (jsonCopyFields fs) = true
  | [] => rfl
  | (k, v) :: fs => by
    by_cases hv : v = .undef
    · subst hv
      simpa [jsonCopyFields] using undefFree_jsonCopyFields fs
    · rw [jsonCopyFields_cons_ne k v fs hv]
      simp [undefFreeFields, undefFree_jsonCopy v hv, undefFree_jsonCopyFields fs]
end

mutual
def jsonCopy_id : ∀ (v : JsVal), undefFree v = true → jsonCopy v = v
  | .undef => fun h => by simp [undefFree] at h
  | .null => fun _ => rfl
  | .bool _ => fun _ => rfl
  | .num _ => fun _ => rfl
  | .str _ => fun _ => rfl
  | .arr xs => fun h => by
    simp only [jsonCopy]
    rw [jsonCopyArr_id xs (by simpa [undefFree] using h)]
  | .obj fs => fun h => by
    simp only [jsonCopy]
    rw [jsonCopyFields_id fs (by simpa [undefFree] using h)]

def jsonCopyArr_id : ∀ (xs : List JsVal), undefFreeArr xs = true → jsonCopyArr xs = xs
  | [] => fun _ => rfl
  | x :: xs => fun h => by
    obtain ⟨h1, h2⟩ := by simpa [undefFreeArr, Bool.and_eq_true] using h
    have hne : x ≠ .undef := by
      intro he
      rw [he] at h1
      simp [undefFree] at h1
    rw [jsonCopyArr_cons_ne x xs hne, jsonCopy_id x h1, jsonCopyArr_id xs h2]

def jsonCopyFields_id : ∀ (fs : List (String × JsVal)), undefFreeFields fs = true → jsonCopyFields fs = fs
  | [] => fun _ => rfl
  | (k, v) :: fs => fun h => by
    obtain ⟨h1, h2⟩ := by simpa [undefFreeFields, Bool.and_eq_true] using h
    have hne : v ≠ .undef := by
      intro he
      rw [he] at h1
      simp [undefFree] at h1
    rw [jsonCopyFields_cons_ne k v fs hne, jsonCopy_id v h1, jsonCopyFields_id fs h2]
end

theorem jsonCopy_idem (v : JsVal) : jsonCopy (jsonCopy v) = jsonCopy v := by
  by_cases h : v = .undef
  · subst h
    rfl
  · exact jsonCopy_id _ (undefFree_jsonCopy v h)

theorem truthy_jsonCopy (v : JsVal) : truthy (jsonCopy v) = truthy v := by
  cases v <;> rfl

theorem mergeConfig_obj_eq (d : JsVal) (ofs : List (String × JsVal)) :
    mergeConfig d (.obj ofs) = mergeFields ofs (jsonCopy d) := rfl

theorem mergeFields_cons_str (k : String) (s : String) (rest : List (String × JsVal))
    (fs : List (String × JsVal)) :
    mergeFields ((k, .str s) :: rest) (.obj fs)
      = mergeFields rest (.obj (setField fs k (.str s))) := by
  simp [mergeFields, typeofObject, setPropE]

theorem mergeFields_cons_obj_truthy (k : String) (efs rest fs : List (String × JsVal))
    (h : truthy (getProp (.obj fs) k) = true) :
    mergeFields ((k, .obj efs) :: rest) (.obj fs)
      = (match mergeConfig (getProp (.obj fs) k) (.obj efs) with
         | .error e => (.error e : Except String JsVal)
         | .ok w => mergeFields rest (.obj (setField fs k w))) := by
  cases hmc : mergeConfig (getProp (.obj fs) k) (.obj efs) <;>
    simp [mergeFields, typeofObject, isArr, h, setPropE, hmc]

theorem mergeFields_cons_obj_falsy (k : String) (efs rest fs : List (String × JsVal))
    (h : truthy (getProp (.obj fs) k) = false) :
    mergeFields ((k, .obj efs) :: rest) (.obj fs)
      = mergeFields rest (.obj (setField fs k (.obj efs))) := by
  simp [mergeFields, typeofObject, isArr, h, setPropE]

theorem mergeFields_strs :
    ∀ (efs : List (String × JsVal)), (∀ q ∈ efs, ∃ s, q.2 = JsVal.str s) →
      ∀ (gfs : List (String × JsVal)),
        mergeFields efs (.obj gfs)
          = .ok (.obj (efs.foldl (fun a q => setField a q.1 q.2) gfs))
  | [] => by intro _ gfs; rfl
  | (k, v) :: rest => by
    intro hsh gfs
    obtain ⟨s, hs⟩ := hsh (k, v) (List.mem_cons_self _ _)
    simp only at hs
    subst hs
    rw [mergeFields_cons_str]
    rw [mergeFields_strs rest (fun q hq => hsh q (List.mem_cons_of_mem _ hq)) (setField gfs k (.str s))]
    rfl

theorem foldSet_lookup_not_mem :
    ∀ (efs : List (String × JsVal)) (gfs : List (String × JsVal)) (k : String),
      k ∉ efs.map Prod.fst →
      ((efs.foldl (fun a q => setField a q.1 q.2) gfs).lookup k) = gfs.lookup k
  | [], gfs, k => by intro _; rfl
  | (k0, v0) :: rest, gfs, k => by
    intro hnot
    have hk : k ≠ k0 := fun he => hnot (by simp [he])
    have hrest : k ∉ rest.map Prod.fst := fun hm => hnot (by simp [hm])
    calc ((((k0, v0) :: rest).foldl (fun a q => setField a q.1 q.2) gfs).lookup k)
        = ((rest.foldl (fun a q => setField a q.1 q.2) (setField gfs k0 v0)).lookup k) := rfl
      _ = (setField gfs k0 v0).lookup k := foldSet_lookup_not_mem rest _ k hrest
      _ = gfs.lookup k := lookup_setField_ne gfs k0 v0 k hk

theorem foldSet_lookup_mem :
    ∀ (efs : List (String × JsVal)), (efs.map Prod.fst).Nodup →
      ∀ (k : String) (v : JsVal), (k, v) ∈ efs →
      ∀ (gfs : List (String × JsVal)),
        ((efs.foldl (fun a q => setField a q.1 q.2) gfs).lookup k) = some v
  | [], _, k, v => by intro h; cases h
  | (k0, v0) :: rest, hnod, k, v => by
    intro hmem gfs
    have hsplit : k0 ∉ rest.map Prod.fst ∧ (rest.map Prod.fst).Nodup := by
      rw [List.map_cons] at hnod
      exact List.nodup_cons.mp hnod
    obtain ⟨hknotin, hnodr⟩ := hsplit
    rcases List.mem_cons.mp hmem with heq | hrest
    · have hk : k = k0 := congrArg Prod.fst heq
      have hv : v = v0 := congrArg Prod.snd heq
      subst hk
      subst hv
      calc ((((k, v) :: rest).foldl (fun a q => setField a q.1 q.2) gfs).lookup k)
          = ((rest.foldl (fun a q => setField a q.1 q.2) (setField gfs k v)).lookup k) := rfl
        _ = (setField gfs k v).lookup k := foldSet_lookup_not_mem rest _ k hknotin
        _ = some v := lookup_setField_self gfs k v
    · exact foldSet_lookup_mem rest hnodr k v hrest (setField gfs k0 v0)

theorem foldSet_self :
    ∀ (efs : List (String × JsVal)) (gfs : List (String × JsVal)),
      (∀ q ∈ efs, gfs.lookup q.1 = some q.2) →
      efs.foldl (fun a q => setField a q.1 q.2) gfs = gfs
  | [], gfs => by intro _; rfl
  | (k0, v0) :: rest, gfs => by
    intro hlk
    have hhead : gfs.lookup k0 = some v0 := hlk (k0, v0) (List.mem_cons_self _ _)
    calc ((k0, v0) :: rest).foldl (fun a q => setField a q.1 q.2) gfs
        = rest.foldl (fun a q => setField a q.1 q.2) (setField gfs k0 v0) := rfl
      _ = rest.foldl (fun a q => setField a q.1 q.2) gfs := by rw [setField_self gfs k0 v0 hhead]
      _ = gfs := foldSet_self rest gfs (fun q hq => hlk q (List.mem_cons_of_mem _ hq))

theorem foldSet_undefFree :
    ∀ (efs : List (String × JsVal)) (gfs : List (String × JsVal)),
      undefFreeFields gfs = true → (∀ q ∈ efs, ∃ s, q.2 = JsVal.str s) →
      undefFreeFields (efs.foldl (fun a q => setField a q.1 q.2) gfs) = true
  | [], gfs => by intro h _; exact h
  | (k0, v0) :: rest, gfs => by
    intro hg hsh
    obtain ⟨s, hs⟩ := hsh (k0, v0) (List.mem_cons_self _ _)
    simp only at hs
    subst hs
    exact foldSet_undefFree rest (setField gfs k0 (.str s))
      (setField_undefFree gfs k0 (.str s) hg rfl)
      (fun q hq => hsh q (List.mem_cons_of_mem _ hq))

theorem strShaped_undefFree :
    ∀ (efs : List (String × JsVal)), (∀ q ∈ efs, ∃ s, q.2 = JsVal.str s) →
      undefFreeFields efs = true
  | [] => by intro _; rfl
  | (k0, v0) :: rest => by
    intro hsh
    obtain ⟨s, hs⟩ := hsh (k0, v0) (List.mem_cons_self _ _)
    simp only at hs
    subst hs
    simp [undefFreeFields, undefFree,
      strShaped_undefFree rest (fun q hq => hsh q (List.mem_cons_of_mem _ hq))]

theorem mergeFields_strs_nonobj :
    ∀ (efs : List (String × JsVal)), (∀ q ∈ efs, ∃ s, q.2 = JsVal.str s) →
      ∀ (gv m : JsVal), (∀ gs, gv ≠ .obj gs) → mergeFields efs gv = .ok m →
      efs = [] ∧ m = gv
  | [] => by
    intro _ gv m _ h
    exact ⟨rfl, (Except.ok.inj h).symm⟩
  | (k, v) :: rest => by
    intro hsh gv m hne h
    obtain ⟨s, hs⟩ := hsh (k, v) (List.mem_cons_self _ _)
    simp only at hs
    subst hs
    exfalso
    cases gv <;> first
      | exact hne _ rfl
      | simp [mergeFields, typeofObject, setPropE, getProp] at h

theorem self_merge_strs (efs : List (String × JsVal))
    (hnod : (efs.map Prod.fst).Nodup) (hvals : ∀ q ∈ efs, ∃ s, q.2 = JsVal.str s) :
    mergeConfig (.obj efs) (.obj efs) = .ok (.obj efs) := by
  rw [mergeConfig_obj_eq]
  have hcopy : jsonCopy (.obj efs) = .obj efs :=
    jsonCopy_id _ (by simpa [undefFree] using strShaped_undefFree efs hvals)
  rw [hcopy, mergeFields_strs efs hvals efs]
  rw [foldSet_self efs efs (fun q hq => nodup_lookup efs hnod q.1 q.2 hq)]

theorem inner_merge_spec (efs : List (String × JsVal))
    (hnod : (efs.map Prod.fst).Nodup) (hvals : ∀ q ∈ efs, ∃ s, q.2 = JsVal.str s)
    (X w : JsVal) (hX : X ≠ .undef)
    (h : mergeConfig X (.obj efs) = .ok w) :
    undefFree w = true
    ∧ (truthy X = true → truthy w = true)
    ∧ mergeConfig w (.obj efs) = .ok w := by
  rw [mergeConfig_obj_eq] at h
  by_cases hex : ∃ gfs, jsonCopy X = .obj gfs
  · obtain ⟨gfs, hcopy⟩ := hex
    rw [hcopy, mergeFields_strs efs hvals gfs] at h
    have hw : w = .obj (efs.foldl (fun a q => setField a q.1 q.2) gfs) := (Except.ok.inj h).symm
    have hgfs : undefFreeFields gfs = true := by
      have hfree := undefFree_jsonCopy X hX
      rw [hcopy] at hfree
      simpa [undefFree] using hfree
    have hwfree : undefFree w = true := by
      rw [hw]
      simpa [undefFree] using foldSet_undefFree efs gfs hgfs hvals
    refine ⟨hwfree, fun _ => by rw [hw]; rfl, ?_⟩
    rw [mergeConfig_obj_eq, jsonCopy_id w hwfree, hw, mergeFields_strs efs hvals]
    rw [foldSet_self efs _ (fun q hq => foldSet_lookup_mem efs hnod q.1 q.2 hq gfs)]
  · have hne : ∀ gs, jsonCopy X ≠ .obj gs := fun gs hg => hex ⟨gs, hg⟩
    obtain ⟨hefs, hwv⟩ := mergeFields_strs_nonobj efs hvals (jsonCopy X) w hne h
    subst hefs
    have hwid : jsonCopy w = w := by rw [hwv, jsonCopy_idem]
    refine ⟨?_, ?_, ?_⟩
    · rw [hwv]
      exact undefFree_jsonCopy X hX
    · intro ht
      rw [hwv, truthy_jsonCopy]
      exact ht
    · rw [mergeConfig_obj_eq, hwid]
      rfl

theorem getProp_setField_self (fs : List (String × JsVal)) (k : String) (x : JsVal) :
    getProp (.obj (setField fs k x)) k = x := by
  rw [getProp_obj, lookup_setField_self]
  rfl

theorem getProp_setField_ne (fs : List (String × JsVal)) (k : String) (x : JsVal)
    (k' : String) (h : k' ≠ k) :
    getProp (.obj (setField fs k x)) k' = getProp (.obj fs) k' := by
  rw [getProp_obj, getProp_obj, lookup_setField_ne fs k x k' h]

theorem lookup_of_getProp (gs : List (String × JsVal)) (k : String) (x : JsVal)
    (hx : x ≠ .undef) (h : getProp (.obj gs) k = x) : gs.lookup k = some x := by
  rw [getProp_obj] at h
  cases hl : gs.lookup k with
  | none =>
    rw [hl] at h
    exact absurd h.symm hx
  | some y =>
    rw [hl] at h
    simp only [Option.getD_some] at h
    rw [h]

theorem mergeShapedAux :
    ∀ (ofs : List (String × JsVal)),
      (ofs.map Prod.fst).Nodup →
      (∀ p ∈ ofs, (∃ s, p.2 = JsVal.str s)
          ∨ (∃ efs, p.2 = JsVal.obj efs
              ∧ (efs.map Prod.fst).Nodup ∧ (∀ q ∈ efs, ∃ s, q.2 = JsVal.str s))) →
      ∀ (fs : List (String × JsVal)) (m : JsVal),
        mergeFields ofs (.obj fs) = .ok m →
        (∃ gs, m = .obj gs)
        ∧ (∀ k s, (k, JsVal.str s) ∈ ofs → getProp m k = .str s)
        ∧ (∀ k, k ∉ ofs.map Prod.fst → getProp m k = getProp (.obj fs) k)
        ∧ (∀ k efs, (k, JsVal.obj efs) ∈ ofs →
             (truthy (getProp (.obj fs) k) = true →
                mergeConfig (getProp (.obj fs) k) (.obj efs) = .ok (getProp m k))
             ∧ (truthy (getProp (.obj fs) k) = false → getProp m k = .obj efs))
        ∧ (undefFreeFields fs = true → undefFree m = true)
        ∧ mergeFields ofs m = .ok m
  | [] => by
    intro _ _ fs m h
    have hm : JsVal.obj fs = m := Except.ok.inj h
    subst hm
    refine ⟨⟨fs, rfl⟩, ?_, ?_, ?_, ?_, ?_⟩
    · intro k s hk
      cases hk
    · intro k _
      rfl
    · intro k efs hk
      cases hk
    · intro hf
      simpa [undefFree] using hf
    · rfl
  | (k, v) :: rest => by
    intro hnodup hsh fs m h
    have hsplit : k ∉ rest.map Prod.fst ∧ (rest.map Prod.fst).Nodup := by
      rw [List.map_cons] at hnodup
      exact List.nodup_cons.mp hnodup
    obtain ⟨hknotin, hnodr⟩ := hsplit
    have hshr := fun p hp => hsh p (List.mem_cons_of_mem _ hp)
    rcases hsh (k, v) (List.mem_cons_self _ _) with ⟨s, hv⟩ | ⟨efs, hv, hnode, hvalse⟩
    · simp only at hv
      subst hv
      rw [mergeFields_cons_str] at h
      obtain ⟨⟨gs, hm⟩, IH2, IH3, IH4, IH5, IH6⟩ :=
        mergeShapedAux rest hnodr hshr (setField fs k (.str s)) m h
      have hmk : getProp m k = .str s := by
        rw [IH3 k hknotin, getProp_setField_self]
      refine ⟨⟨gs, hm⟩, ?_, ?_, ?_, ?_, ?_⟩
      · intro k' s' hk'
        rcases List.mem_cons.mp hk' with heq | hr
        · have h1 : k' = k := congrArg Prod.fst heq
          have h2 : JsVal.str s' = JsVal.str s := congrArg Prod.snd heq
          subst h1
          exact hmk.trans h2.symm
        · exact IH2 k' s' hr
      · intro k' hk'
        have hne : k' ≠ k := fun he => hk' (by simp [he])
        have hr : k' ∉ rest.map Prod.fst := fun hm2 => hk' (by simp [hm2])
        rw [IH3 k' hr, getProp_setField_ne fs k (.str s) k' hne]
      · intro k' efs' hk'
        rcases List.mem_cons.mp hk' with heq | hr
        · exact absurd (congrArg Prod.snd heq) (by simp)
        · have hkr : k' ∈ rest.map Prod.fst := List.mem_map.mpr ⟨(k', .obj efs'), hr, rfl⟩
          have hne : k' ≠ k := fun he => hknotin (he ▸ hkr)
          have hIH := IH4 k' efs' hr
          rw [getProp_setField_ne fs k (.str s) k' hne] at hIH
          exact hIH
      · intro hf
        exact IH5 (setField_undefFree fs k (.str s) hf rfl)
      · rw [hm, mergeFields_cons_str]
        have hlk : gs.lookup k = some (.str s) :=
          lookup_of_getProp gs k (.str s) (by simp) (hm ▸ hmk)
        rw [setField_self gs k (.str s) hlk, ← hm]
        exact IH6
    · simp only at hv
      subst hv
      by_cases htr : truthy (getProp (.obj fs) k) = true
      · rw [mergeFields_cons_obj_truthy k efs rest fs htr] at h
        cases hmc : mergeConfig (getProp (.obj fs) k) (.obj efs) with
        | error e =>
          rw [hmc] at h
          exact absurd h (by simp)
        | ok w =>
          rw [hmc] at h
          have hXne : getProp (.obj fs) k ≠ .undef := by
            intro he
            rw [he] at htr
            simp [truthy] at htr
          obtain ⟨hwfree, hwtr, hwidem⟩ :=
            inner_merge_spec efs hnode hvalse (getProp (.obj fs) k) w hXne hmc
          obtain ⟨⟨gs, hm⟩, IH2, IH3, IH4, IH5, IH6⟩ :=
            mergeShapedAux rest hnodr hshr (setField fs k w) m h
          have hmk : getProp m k = w := by
            rw [IH3 k hknotin, getProp_setField_self]
          refine ⟨⟨gs, hm⟩, ?_, ?_, ?_, ?_, ?_⟩
          · intro k' s' hk'
            rcases List.mem_cons.mp hk' with heq | hr
            · exact absurd (congrArg Prod.snd heq) (by simp)
            · exact IH2 k' s' hr
          · intro k' hk'
            have hne : k' ≠ k := fun he => hk' (by simp [he])
            have hr : k' ∉ rest.map Prod.fst := fun hm2 => hk' (by simp [hm2])
            rw [IH3 k' hr, getProp_setField_ne fs k w k' hne]
          · intro k' efs' hk'
            rcases List.mem_cons.mp hk' with heq | hr
            · have h1 : k' = k := congrArg Prod.fst heq
              have h2 : JsVal.obj efs' = JsVal.obj efs := congrArg Prod.snd heq
              subst h1
              have hefs : efs' = efs := by simpa using h2
              subst hefs
              refine ⟨fun _ => ?_, fun hfalse => ?_⟩
              · rw [hmk]
                exact hmc
              · exact absurd (htr.symm.trans hfalse) (by simp)
            · have hkr : k' ∈ rest.map Prod.fst := List.mem_map.mpr ⟨(k', .obj efs'), hr, rfl⟩
              have hne : k' ≠ k := fun he => hknotin (he ▸ hkr)
              have hIH := IH4 k' efs' hr
              rw [getProp_setField_ne fs k w k' hne] at hIH
              exact hIH
          · intro hf
            exact IH5 (setField_undefFree fs k w hf hwfree)
          · have hgpk : getProp (.obj gs) k = w := hm ▸ hmk
            have htrm : truthy (getProp (.obj gs) k) = true := by
              rw [hgpk]
              exact hwtr htr
            rw [hm, mergeFields_cons_obj_truthy k efs rest gs htrm, hgpk, hwidem]
            have hlkw : gs.lookup k = some w := by
              refine lookup_of_getProp gs k w ?_ hgpk
              intro he
              rw [he] at hwtr
              simpa [truthy] using hwtr htr
            show mergeFields rest (.obj (setField gs k w)) = .ok (.obj gs)
            rw [setField_self gs k w hlkw, ← hm]
            exact IH6
      · have htrf : truthy (getProp (.obj fs) k) = false := by simpa using htr
        rw [mergeFields_cons_obj_falsy k efs rest fs htrf] at h
        obtain ⟨⟨gs, hm⟩, IH2, IH3, IH4, IH5, IH6⟩ :=
          mergeShapedAux rest hnodr hshr (setField fs k (.obj efs)) m h
        have hmk : getProp m k = .obj efs := by
          rw [IH3 k hknotin, getProp_setField_self]
        refine ⟨⟨gs, hm⟩, ?_, ?_, ?_, ?_, ?_⟩
        · intro k' s' hk'
          rcases List.mem_cons.mp hk' with heq | hr
          · exact absurd (congrArg Prod.snd heq) (by simp)
          · exact IH2 k' s' hr
        · intro k' hk'
          have hne : k' ≠ k := fun he => hk' (by simp [he])
          have hr : k' ∉ rest.map Prod.fst := fun hm2 => hk' (by simp [hm2])
          rw [IH3 k' hr, getProp_setField_ne fs k (.obj efs) k' hne]
        · intro k' efs' hk'
          rcases List.mem_cons.mp hk' with heq | hr
          · have h1 : k' = k := congrArg Prod.fst heq
            have h2 : JsVal.obj efs' = JsVal.obj efs := congrArg Prod.snd heq
            subst h1
            have hefs : efs' = efs := by simpa using h2
            subst hefs
            refine ⟨fun htrue => absurd (htrf.symm.trans htrue) (by simp), fun _ => hmk⟩
          · have hkr : k' ∈ rest.map Prod.fst := List.mem_map.mpr ⟨(k', .obj efs'), hr, rfl⟩
            have hne : k' ≠ k := fun he => hknotin (he ▸ hkr)
            have hIH := IH4 k' efs' hr
            rw [getProp_setField_ne fs k (.obj efs) k' hne] at hIH
            exact hIH
        · intro hf
          refine IH5 (setField_undefFree fs k (.obj efs) hf ?_)
          simpa [undefFree] using strShaped_undefFree efs hvalse
        · have hgpk : getProp (.obj gs) k = .obj efs := hm ▸ hmk
          have htrm : truthy (getProp (.obj gs) k) = true := by
            rw [hgpk]
            rfl
          rw [hm, mergeFields_cons_obj_truthy k efs rest gs htrm, hgpk,
            self_merge_strs efs hnode hvalse]
          have hlkw : gs.lookup k = some (.obj efs) :=
            lookup_of_getProp gs k (.obj efs) (by simp) hgpk
          show mergeFields rest (.obj (setField gs k (.obj efs))) = .ok (.obj gs)
          rw [setField_self gs k (.obj efs) hlkw, ← hm]
          exact IH6

/-- C3 counterexample: for the compiled-in defaults and the recognized
override `endpoints = {fetchPets:"/cats"}`, the merged configuration's
`endpoints` field is the deep merge `{fetchPets:"/cats",
fetchOwners:"/owners"}`, not the override's value — so a field of the
merged configuration does not equal the override's value even though the
override is present and defined. -/
theorem c3_merge_counterexample :
    (mergeConfig DEFAULTS (.obj [("endpoints", .obj [("fetchPets", .str ("/cats"))])])).map
        (fun m => getProp m "endpoints")
      = .ok (.obj [("fetchPets", .str ("/cats")), ("fetchOwners", .str ("/owners"))])
  ∧ JsVal.obj [("fetchPets", .str ("/cats")), ("fetchOwners", .str ("/owners"))]
      ≠ JsVal.obj [("fetchPets", .str ("/cats"))] :=
  ⟨rfl, by decide⟩

/-- C3 (amended): for every defaults object and every overrides object of
the shape `loadOverrides` produces (distinct recognized keys, string
values, and an object of string paths for `endpoints`), whenever the merge
succeeds: every string-valued override replaces the field outright; fields
without an override keep the (JSON-copied) default value; an object-valued
override deep-merges with a truthy default counterpart and replaces a
falsy or absent one outright; and the merge is idempotent — merging the
result again with the same overrides yields an equal configuration. -/
theorem c3_merge_amended :
    ∀ (dfs ofs : List (String × JsVal)) (m : JsVal),
      overrideShapedB ofs = true →
      mergeConfig (.obj dfs) (.obj ofs) = .ok m →
      (∀ k s, (k, JsVal.str s) ∈ ofs → getProp m k = .str s)
      ∧ (∀ k, k ∉ ofs.map Prod.fst → getProp m k = getProp (jsonCopy (.obj dfs)) k)
      ∧ (∀ k efs, (k, JsVal.obj efs) ∈ ofs →
           (truthy (getProp (jsonCopy (.obj dfs)) k) = true →
              mergeConfig (getProp (jsonCopy (.obj dfs)) k) (.obj efs) = .ok (getProp m k))
           ∧ (truthy (getProp (jsonCopy (.obj dfs)) k) = false → getProp m k = .obj efs))
      ∧ mergeConfig m (.obj ofs) = .ok m := by
  intro dfs ofs m hB h
  simp only [overrideShapedB, Bool.and_eq_true, decide_eq_true_eq] at hB
  obtain ⟨hnod, hall⟩ := hB
  have hsh : ∀ p ∈ ofs, (∃ s, p.2 = JsVal.str s)
      ∨ (∃ efs, p.2 = JsVal.obj efs
          ∧ (efs.map Prod.fst).Nodup ∧ ∀ q ∈ efs, ∃ s, q.2 = JsVal.str s) := by
    intro p hp
    have hpB := List.all_eq_true.mp hall p hp
    cases hv : p.2 with
    | str s => exact Or.inl ⟨s, rfl⟩
    | obj efs =>
      right
      rw [hv] at hpB
      simp only [isStr, Bool.false_or, strShapedB, Bool.and_eq_true, decide_eq_true_eq] at hpB
      obtain ⟨hn, ha⟩ := hpB
      refine ⟨efs, rfl, hn, ?_⟩
      intro q hq
      have hqB := List.all_eq_true.mp ha q hq
      cases hqv : q.2 with
      | str s => exact ⟨s, rfl⟩
      | _ => rw [hqv] at hqB; simp [isStr] at hqB
    | _ => rw [hv] at hpB; simp [isStr] at hpB
  have haux := mergeShapedAux ofs hnod hsh (jsonCopyFields dfs) m h
  obtain ⟨⟨gs, hm⟩, h2, h3, h4, h5, h6⟩ := haux
  refine ⟨h2, h3, h4, ?_⟩
  have hfree : undefFree m = true := h5 (undefFree_jsonCopyFields dfs)
  rw [mergeConfig_obj_eq, jsonCopy_id m hfree]
  exact h6

/-- Closed witness for the amended merge characterization, applied to the
compiled-in defaults with an apiKey and endpoints override. -/
theorem c3_merge_amended_witness :
    getProp c3Merged "apiKey" = .str ("secret")
  ∧ getProp c3Merged "sheetName" = getProp (jsonCopy (.obj DEFAULTSFields)) "sheetName"
  ∧ mergeConfig c3Merged (.obj c3Ov) = .ok c3Merged := by
  have happ := c3_merge_amended DEFAULTSFields c3Ov c3Merged (by decide) rfl
  exact ⟨happ.1 "apiKey" "secret" (by decide), happ.2.1 "sheetName" (by decide), happ.2.2.2⟩
